import Mathlib

/-!
Verification of the session/replay core of `example-mcp-server-sse`.

The development shallowly embeds the TypeScript source:

* `InMemoryEventStore` (src/unnamed/part_010) — an append-only event log
  backed by a JS `Map` (insertion-ordered, unique keys), with catch-up
  replay ordered by creation timestamp via the (stable, per ECMAScript)
  `Array.prototype.sort`.
* `SessionRegistry.closeSession` / `closeAll`
  (src/src/server/index.ts, src/templates/.../session-registry.ts).
* the request router `handleMcpRequest` and the outer catch-all of
  `createMcpHttpServer` (src/unnamed/part_011), plus the top-level catch
  of the `app.all` handler in src/src/server.ts.

JS `Map`s are embedded as insertion-ordered association lists; async
sequencing is embedded as the order of elements in result/trace lists;
fallible operations return `Except`.
-/

namespace McpServer

/-! ## JS `Map` as an insertion-ordered association list -/

/-- JS `Map.prototype.get`: the value stored under the first (and, for a
real `Map`, only) occurrence of the key. -/
def mapGet {α : Type} (m : List (String × α)) (k : String) : Option α :=
  match m with
  | [] => none
  | (k', v) :: rest => if k' = k then some v else mapGet rest k

/-- JS `Map.prototype.set`: update in place when the key is present
(keeping its position, as `Map` does), otherwise append at the end. -/
def mapSet {α : Type} (m : List (String × α)) (k : String) (v : α) :
    List (String × α) :=
  match m with
  | [] => [(k, v)]
  | (k', v') :: rest =>
      if k' = k then (k, v) :: rest else (k', v') :: mapSet rest k v

/-- JS `Map.prototype.delete`: remove the entry for the key.  On the
unique-key lists produced by `Map` operations this removes exactly the
one matching entry. -/
def mapDelete {α : Type} (m : List (String × α)) (k : String) :
    List (String × α) :=
  m.filter (fun p => ¬ (p.1 = k))

theorem mapGet_eq_none_iff {α : Type} (m : List (String × α)) (k : String) :
    mapGet m k = none ↔ ∀ v, (k, v) ∉ m := by
  induction m with
  | nil => simp [mapGet]
  | cons hd tl ih =>
    obtain ⟨k', v'⟩ := hd
    by_cases hk : k' = k
    · subst hk
      simp only [mapGet, if_pos rfl]
      constructor
      · intro h
        exact absurd h (by simp)
      · intro h
        exact absurd (List.mem_cons_self _ _) (h v')
    · simp only [mapGet, if_neg hk, ih]
      constructor
      · intro h v hv
        rcases List.mem_cons.mp hv with h1 | h1
        · exact hk (congrArg Prod.fst h1).symm
        · exact h v h1
      · intro h v hv
        exact h v (List.mem_cons_of_mem _ hv)

theorem mapGet_mem {α : Type} {m : List (String × α)} {k : String} {v : α}
    (h : mapGet m k = some v) : (k, v) ∈ m := by
  induction m with
  | nil => simp [mapGet] at h
  | cons hd tl ih =>
    obtain ⟨k', v'⟩ := hd
    by_cases hk : k' = k
    · subst hk
      simp [mapGet] at h
      rw [← h]
      exact List.mem_cons_self _ _
    · simp only [mapGet, if_neg hk] at h
      exact List.mem_cons_of_mem _ (ih h)

/-- When the key is absent, `Map.set` appends a fresh entry at the end of
the insertion order. -/
theorem mapSet_of_absent {α : Type} {m : List (String × α)} {k : String}
    (v : α) (h : mapGet m k = none) : mapSet m k v = m ++ [(k, v)] := by
  induction m with
  | nil => simp [mapSet]
  | cons hd tl ih =>
    obtain ⟨k', v'⟩ := hd
    by_cases hk : k' = k
    · subst hk
      simp [mapGet] at h
    · simp only [mapGet, if_neg hk] at h
      simp [mapSet, if_neg hk, ih h]

/-! ## Event log (`InMemoryEventStore`, src/unnamed/part_010) -/

/-- One stored entry of the in-memory event log.  The `JSONRPCMessage`
payload is opaque to the store and embedded as a `String`. -/
structure StoredEvent where
  streamId : String
  message : String
  createdAtMs : Nat
deriving DecidableEq, Repr

/-- The `events` map of `InMemoryEventStore`: event id → stored event, in
insertion order. -/
abbrev EventMap := List (String × StoredEvent)

/-- The event identifier minted by `storeEvent`:
`` `${streamId}_${Date.now()}_${Math.random().toString(36).slice(2, 10)}` ``.
`idNowMs` is the value of that `Date.now()` call and `rand` the random
suffix. -/
def eventIdFor (streamId : String) (idNowMs : Nat) (rand : String) : String :=
  streamId ++ "_" ++ toString idNowMs ++ "_" ++ rand

/-- The method `InMemoryEventStore.storeEvent`.  The two `Date.now()` calls in the
source (one inside the id template, one for `createdAtMs`) are passed in
as `idNowMs` and `createdAtMs`; `rand` is the random suffix.  Returns the
updated map together with the minted event id. -/
def storeEvent (events : EventMap) (streamId message : String)
    (idNowMs : Nat) (rand : String) (createdAtMs : Nat) :
    EventMap × String :=
  let eventId := eventIdFor streamId idNowMs rand
  (mapSet events eventId
    { streamId := streamId, message := message, createdAtMs := createdAtMs },
   eventId)

/-- Stable insertion of one entry: it goes after every entry whose
`createdAtMs` is `≤` its own.  Folding this over the entries realises the
ECMAScript-stable `sort((a, b) => a.createdAtMs - b.createdAtMs)`. -/
def insertByCreated (x : String × StoredEvent) :
    EventMap → EventMap
  | [] => [x]
  | y :: ys =>
      if y.2.createdAtMs ≤ x.2.createdAtMs then y :: insertByCreated x ys
      else x :: y :: ys

/-- The `ordered` list of `replayEventsAfter`: the map entries, stably
sorted by `createdAtMs` (ties keep `Map` insertion order, exactly as the
stable `Array.prototype.sort` does). -/
def sortByCreatedAt (events : EventMap) : EventMap :=
  events.foldl (fun acc x => insertByCreated x acc) []

/-- The `for (const [eventId, event] of ordered)` loop of
`replayEventsAfter`: skip entries of other streams, flip `found` at the
`lastEventId` entry, and deliver every same-stream entry once `found`
holds.  The returned list holds the `send(eventId, event.message)` calls
in issue order (each awaited before the next is issued). -/
def replayLoop (lastEventId targetStream : String) :
    EventMap → Bool → List (String × String)
  | [], _ => []
  | (eid, ev) :: rest, found =>
      if ev.streamId ≠ targetStream then
        replayLoop lastEventId targetStream rest found
      else if eid = lastEventId then
        replayLoop lastEventId targetStream rest true
      else if found then
        (eid, ev.message) :: replayLoop lastEventId targetStream rest found
      else
        replayLoop lastEventId targetStream rest found

/-- The method `InMemoryEventStore.replayEventsAfter`.  Returns the string the
function resolves with (`''` when `lastEventId` is unknown, otherwise the
stream id) paired with the ordered list of `send` deliveries. -/
def replayEventsAfter (events : EventMap) (lastEventId : String) :
    String × List (String × String) :=
  match mapGet events lastEventId with
  | none => ("", [])
  | some lastEvent =>
      let ordered := sortByCreatedAt events
      (lastEvent.streamId,
       replayLoop lastEventId lastEvent.streamId ordered false)

/-- Appending an event where both `Date.now()` reads coincide; the shape
every claim scenario uses. -/
def appendEvent (events : EventMap) (streamId message : String)
    (nowMs : Nat) (rand : String) : EventMap :=
  (storeEvent events streamId message nowMs rand nowMs).1

/-- Comparison used by the sort of `replayEventsAfter`. -/
def createdLe (a b : String × StoredEvent) : Prop :=
  a.2.createdAtMs ≤ b.2.createdAtMs

theorem insertByCreated_of_all_le (x : String × StoredEvent)
    (l : EventMap) (h : ∀ y ∈ l, createdLe y x) :
    insertByCreated x l = l ++ [x] := by
  induction l with
  | nil => simp [insertByCreated]
  | cons y ys ih =>
    have hy : y.2.createdAtMs ≤ x.2.createdAtMs :=
      h y (List.mem_cons_self _ _)
    simp only [insertByCreated, if_pos hy, List.cons_append,
      List.cons.injEq, true_and]
    exact ih (fun z hz => h z (List.mem_cons_of_mem _ hz))

theorem sortAux_of_sorted :
    ∀ (l acc : EventMap), List.Pairwise createdLe (acc ++ l) →
      l.foldl (fun acc x => insertByCreated x acc) acc = acc ++ l := by
  intro l
  induction l with
  | nil => intro acc _; simp
  | cons x xs ih =>
    intro acc hp
    have hacc : ∀ y ∈ acc, createdLe y x := by
      intro y hy
      exact (List.pairwise_append.mp hp).2.2 y hy x (List.mem_cons_self _ _)
    have hins : insertByCreated x acc = acc ++ [x] :=
      insertByCreated_of_all_le x acc hacc
    have hp' : List.Pairwise createdLe ((acc ++ [x]) ++ xs) := by
      rw [List.append_assoc, List.singleton_append]
      exact hp
    calc (x :: xs).foldl (fun acc x => insertByCreated x acc) acc
        = xs.foldl (fun acc x => insertByCreated x acc) (acc ++ [x]) := by
          rw [List.foldl_cons, hins]
      _ = (acc ++ [x]) ++ xs := ih (acc ++ [x]) hp'
      _ = acc ++ x :: xs := by rw [List.append_assoc, List.singleton_append]

/-- On a log whose entries are already in nondecreasing `createdAtMs`
order (the normal case: `Date.now()` is nondecreasing across appends),
the stable sort keeps `Map` insertion order unchanged. -/
theorem sortByCreatedAt_of_sorted (l : EventMap)
    (h : List.Pairwise createdLe l) : sortByCreatedAt l = l := by
  have := sortAux_of_sorted l [] (by simpa using h)
  simpa [sortByCreatedAt] using this

theorem mem_insertByCreated (x y : String × StoredEvent) (l : EventMap) :
    y ∈ insertByCreated x l ↔ y = x ∨ y ∈ l := by
  induction l with
  | nil => simp [insertByCreated]
  | cons z zs ih =>
    by_cases hz : z.2.createdAtMs ≤ x.2.createdAtMs
    · simp only [insertByCreated, if_pos hz, List.mem_cons, ih]
      tauto
    · simp [insertByCreated, if_neg hz, List.mem_cons]

theorem mem_sortByCreatedAt (y : String × StoredEvent) (l : EventMap) :
    y ∈ sortByCreatedAt l ↔ y ∈ l := by
  suffices h : ∀ (l acc : EventMap),
      (y ∈ l.foldl (fun acc x => insertByCreated x acc) acc ↔
        y ∈ acc ∨ y ∈ l) by
    simpa [sortByCreatedAt] using h l []
  intro l
  induction l with
  | nil => intro acc; simp
  | cons x xs ih =>
    intro acc
    rw [List.foldl_cons, ih (insertByCreated x acc),
      mem_insertByCreated x y acc]
    simp only [List.mem_cons]
    tauto

/-- Every delivery issued by the replay loop is a logged entry of the
target stream, and never the `lastEventId` entry itself (that entry is
skipped unconditionally by the `eventId === lastEventId` check). -/
theorem replayLoop_mem (lastEventId targetStream : String) :
    ∀ (l : EventMap) (found : Bool) (p : String × String),
      p ∈ replayLoop lastEventId targetStream l found →
      ∃ ev : StoredEvent, (p.1, ev) ∈ l ∧ ev.streamId = targetStream ∧
        p.1 ≠ lastEventId ∧ p.2 = ev.message := by
  intro l
  induction l with
  | nil => intro found p hp; simp [replayLoop] at hp
  | cons hd tl ih =>
    obtain ⟨eid, ev⟩ := hd
    intro found p hp
    by_cases hs : ev.streamId ≠ targetStream
    · rw [replayLoop, if_pos hs] at hp
      obtain ⟨ev', h1, h2, h3, h4⟩ := ih found p hp
      exact ⟨ev', List.mem_cons_of_mem _ h1, h2, h3, h4⟩
    · by_cases he : eid = lastEventId
      · rw [replayLoop, if_neg hs, if_pos he] at hp
        obtain ⟨ev', h1, h2, h3, h4⟩ := ih true p hp
        exact ⟨ev', List.mem_cons_of_mem _ h1, h2, h3, h4⟩
      · by_cases hf : found
        · rw [replayLoop, if_neg hs, if_neg he, if_pos hf] at hp
          rcases List.mem_cons.mp hp with h1 | h1
          · subst h1
            exact ⟨ev, List.mem_cons_self _ _, not_not.mp hs, he, rfl⟩
          · obtain ⟨ev', h1', h2, h3, h4⟩ := ih found p h1
            exact ⟨ev', List.mem_cons_of_mem _ h1', h2, h3, h4⟩
        · rw [replayLoop, if_neg hs, if_neg he, if_neg hf] at hp
          obtain ⟨ev', h1, h2, h3, h4⟩ := ih found p hp
          exact ⟨ev', List.mem_cons_of_mem _ h1, h2, h3, h4⟩

/-- A log holding four events of one stream, appended in this order. -/
def fourEventStore (s m1 m2 m3 m4 : String) (t1 t2 t3 t4 : Nat)
    (r1 r2 r3 r4 : String) : EventMap :=
  appendEvent (appendEvent (appendEvent (appendEvent [] s m1 t1 r1)
    s m2 t2 r2) s m3 t3 r3) s m4 t4 r4

/-- A log holding three events of one stream: an anchor at `t0` and then
two events sharing one creation timestamp `t`. -/
def threeEventStore (s m0 ma mb : String) (t0 t : Nat)
    (r0 ra rb : String) : EventMap :=
  appendEvent (appendEvent (appendEvent [] s m0 t0 r0) s ma t ra) s mb t rb

/-- Tie-breaking scenario, first insertion order: anchor, then the
`ra`-event, then the `rb`-event (the latter two share timestamp 5). -/
def tieStoreA : EventMap := threeEventStore "s" "m0" "ma" "mb" 1 5 "r0" "ra" "rb"

/-- Same entries as `tieStoreA` (same event ids, payloads and
timestamps), but the two timestamp-5 events were appended in the other
order. -/
def tieStoreB : EventMap := threeEventStore "s" "m0" "mb" "ma" 1 5 "r0" "rb" "ra"

/-! ## Claims about the event log -/

/-- C2: for a stream with events `e1, e2, e3, e4` appended in that order
(nondecreasing `Date.now()` readings, distinct minted identifiers),
`replayEventsAfter(e2)` issues the `send` callback exactly for `e3` then
`e4`, in that order, each awaited before the next (the delivery list is
in issue order), and `replayEventsAfter(e4)` issues no deliveries. -/
theorem c2_replay_completeness_ordering
    (s m1 m2 m3 m4 r1 r2 r3 r4 : String) (t1 t2 t3 t4 : Nat)
    (h12 : t1 ≤ t2) (h23 : t2 ≤ t3) (h34 : t3 ≤ t4)
    (hids : List.Nodup [eventIdFor s t1 r1, eventIdFor s t2 r2,
      eventIdFor s t3 r3, eventIdFor s t4 r4]) :
    replayEventsAfter
        (fourEventStore s m1 m2 m3 m4 t1 t2 t3 t4 r1 r2 r3 r4)
        (eventIdFor s t2 r2) =
      (s, [(eventIdFor s t3 r3, m3), (eventIdFor s t4 r4, m4)]) ∧
    replayEventsAfter
        (fourEventStore s m1 m2 m3 m4 t1 t2 t3 t4 r1 r2 r3 r4)
        (eventIdFor s t4 r4) = (s, []) := by
  simp only [List.nodup_cons, List.mem_cons, List.not_mem_nil, or_false,
    not_or, List.nodup_nil, and_true] at hids
  obtain ⟨⟨hn12, hn13, hn14⟩, ⟨hn23, hn24⟩, hn34⟩ := hids
  have hn32 : ¬ (eventIdFor s t3 r3 = eventIdFor s t2 r2) := fun h => hn23 h.symm
  have hn42 : ¬ (eventIdFor s t4 r4 = eventIdFor s t2 r2) := fun h => hn24 h.symm
  have hstore : fourEventStore s m1 m2 m3 m4 t1 t2 t3 t4 r1 r2 r3 r4 =
      [(eventIdFor s t1 r1, ⟨s, m1, t1⟩), (eventIdFor s t2 r2, ⟨s, m2, t2⟩),
       (eventIdFor s t3 r3, ⟨s, m3, t3⟩), (eventIdFor s t4 r4, ⟨s, m4, t4⟩)] := by
    simp [fourEventStore, appendEvent, storeEvent, mapSet, hn12, hn13, hn14,
      hn23, hn24, hn34]
  have hsorted : List.Pairwise createdLe
      [(eventIdFor s t1 r1, (⟨s, m1, t1⟩ : StoredEvent)),
       (eventIdFor s t2 r2, ⟨s, m2, t2⟩),
       (eventIdFor s t3 r3, ⟨s, m3, t3⟩),
       (eventIdFor s t4 r4, ⟨s, m4, t4⟩)] := by
    simp [List.pairwise_cons, createdLe]
    omega
  have hsort := sortByCreatedAt_of_sorted _ hsorted
  constructor
  · rw [hstore]
    simp only [replayEventsAfter]
    rw [show mapGet [(eventIdFor s t1 r1, (⟨s, m1, t1⟩ : StoredEvent)),
        (eventIdFor s t2 r2, ⟨s, m2, t2⟩), (eventIdFor s t3 r3, ⟨s, m3, t3⟩),
        (eventIdFor s t4 r4, ⟨s, m4, t4⟩)] (eventIdFor s t2 r2) =
        some ⟨s, m2, t2⟩ from by simp [mapGet, hn12]]
    rw [hsort]
    simp [replayLoop, hn12, hn32, hn42]
  · rw [hstore]
    simp only [replayEventsAfter]
    rw [show mapGet [(eventIdFor s t1 r1, (⟨s, m1, t1⟩ : StoredEvent)),
        (eventIdFor s t2 r2, ⟨s, m2, t2⟩), (eventIdFor s t3 r3, ⟨s, m3, t3⟩),
        (eventIdFor s t4 r4, ⟨s, m4, t4⟩)] (eventIdFor s t4 r4) =
        some ⟨s, m4, t4⟩ from by simp [mapGet, hn14, hn24, hn34]]
    rw [hsort]
    simp [replayLoop, hn14, hn24, hn34]

/-- Witness for C2 at a concrete four-event stream. -/
theorem c2_replay_completeness_ordering_witness :
    List.Nodup [eventIdFor "s" 1 "aa", eventIdFor "s" 2 "bb",
      eventIdFor "s" 3 "cc", eventIdFor "s" 4 "dd"] ∧
    (replayEventsAfter
        (fourEventStore "s" "w" "x" "y" "z" 1 2 3 4 "aa" "bb" "cc" "dd")
        (eventIdFor "s" 2 "bb") =
      ("s", [(eventIdFor "s" 3 "cc", "y"), (eventIdFor "s" 4 "dd", "z")]) ∧
    replayEventsAfter
        (fourEventStore "s" "w" "x" "y" "z" 1 2 3 4 "aa" "bb" "cc" "dd")
        (eventIdFor "s" 4 "dd") = ("s", [])) :=
  ⟨by decide,
   c2_replay_completeness_ordering "s" "w" "x" "y" "z" "aa" "bb" "cc" "dd"
     1 2 3 4 (by decide) (by decide) (by decide) (by decide)⟩

/-- C3: replay from an event identifier that is not in the log resolves
with the empty stream identifier and issues zero deliveries; the
function is total (never throws). -/
theorem c3_replay_unknown_id (events : EventMap) (lastEventId : String)
    (h : mapGet events lastEventId = none) :
    replayEventsAfter events lastEventId = ("", []) := by
  simp [replayEventsAfter, h]

/-- Witness for C3: an identifier never issued by a one-event log. -/
theorem c3_replay_unknown_id_witness :
    mapGet (appendEvent [] "s" "m" 5 "rr") "zz" = none ∧
    replayEventsAfter (appendEvent [] "s" "m" 5 "rr") "zz" = ("", []) :=
  ⟨by decide, c3_replay_unknown_id _ "zz" (by decide)⟩

/-- C4: replay from a stored event `E` resolves with `E`'s stream
identifier, and every delivery is a logged entry of `E`'s own stream and
is never the `E` entry itself. -/
theorem c4_replay_stream_scoped (events : EventMap) (lastEventId : String)
    (ev : StoredEvent) (h : mapGet events lastEventId = some ev) :
    (replayEventsAfter events lastEventId).1 = ev.streamId ∧
    ∀ p ∈ (replayEventsAfter events lastEventId).2,
      p.1 ≠ lastEventId ∧
      ∃ ev' : StoredEvent, (p.1, ev') ∈ events ∧
        ev'.streamId = ev.streamId ∧ p.2 = ev'.message := by
  constructor
  · simp [replayEventsAfter, h]
  · intro p hp
    simp only [replayEventsAfter, h] at hp
    obtain ⟨ev', h1, h2, h3, h4⟩ :=
      replayLoop_mem lastEventId ev.streamId _ false p hp
    exact ⟨h3, ev', (mem_sortByCreatedAt _ _).mp h1, h2, h4⟩

/-- Witness for C4 on a two-stream log. -/
theorem c4_replay_stream_scoped_witness :
    mapGet (appendEvent (appendEvent [] "a" "m1" 1 "r1") "b" "m2" 2 "r2")
      (eventIdFor "a" 1 "r1") = some ⟨"a", "m1", 1⟩ ∧
    ((replayEventsAfter
        (appendEvent (appendEvent [] "a" "m1" 1 "r1") "b" "m2" 2 "r2")
        (eventIdFor "a" 1 "r1")).1 = "a" ∧
      ∀ p ∈ (replayEventsAfter
        (appendEvent (appendEvent [] "a" "m1" 1 "r1") "b" "m2" 2 "r2")
        (eventIdFor "a" 1 "r1")).2,
        p.1 ≠ eventIdFor "a" 1 "r1" ∧
        ∃ ev' : StoredEvent,
          (p.1, ev') ∈ appendEvent (appendEvent [] "a" "m1" 1 "r1") "b" "m2" 2 "r2" ∧
          ev'.streamId = "a" ∧ p.2 = ev'.message) :=
  ⟨by decide, c4_replay_stream_scoped _ _ ⟨"a", "m1", 1⟩ (by decide)⟩

/-- C5, counterexample: the replay order of two same-timestamp events is
not determined by the disambiguator carried in the event identifiers.
`tieStoreA` and `tieStoreB` hold exactly the same entries (a permutation:
same identifiers, same random suffixes, same timestamps, same payloads),
yet replay after the anchor delivers them in the two different insertion
orders, so no function of the identifiers alone can fix the order. -/
theorem c5_counterexample :
    List.Perm tieStoreA tieStoreB ∧
    replayEventsAfter tieStoreA (eventIdFor "s" 1 "r0") =
      ("s", [(eventIdFor "s" 5 "ra", "ma"), (eventIdFor "s" 5 "rb", "mb")]) ∧
    replayEventsAfter tieStoreB (eventIdFor "s" 1 "r0") =
      ("s", [(eventIdFor "s" 5 "rb", "mb"), (eventIdFor "s" 5 "ra", "ma")]) := by
  refine ⟨?_, by decide, by decide⟩
  have hA : tieStoreA =
      [(eventIdFor "s" 1 "r0", ⟨"s", "m0", 1⟩),
       (eventIdFor "s" 5 "ra", ⟨"s", "ma", 5⟩),
       (eventIdFor "s" 5 "rb", ⟨"s", "mb", 5⟩)] := by decide
  have hB : tieStoreB =
      [(eventIdFor "s" 1 "r0", ⟨"s", "m0", 1⟩),
       (eventIdFor "s" 5 "rb", ⟨"s", "mb", 5⟩),
       (eventIdFor "s" 5 "ra", ⟨"s", "ma", 5⟩)] := by decide
  rw [hA, hB]
  exact List.Perm.cons _ (List.Perm.swap _ _ _)

/-- C5 as amended: two events of one stream that share a creation
timestamp are replayed in their log insertion order (the stable sort
keeps `Map` insertion order on ties), so the order is well-defined; the
identifier's random component plays no role in it. -/
theorem c5_tie_broken_by_insertion (s m0 ma mb r0 ra rb : String)
    (t0 t : Nat) (h0 : t0 ≤ t)
    (hids : List.Nodup [eventIdFor s t0 r0, eventIdFor s t ra,
      eventIdFor s t rb]) :
    replayEventsAfter (threeEventStore s m0 ma mb t0 t r0 ra rb)
        (eventIdFor s t0 r0) =
      (s, [(eventIdFor s t ra, ma), (eventIdFor s t rb, mb)]) := by
  simp only [List.nodup_cons, List.mem_cons, List.not_mem_nil, or_false,
    not_or, List.nodup_nil, and_true] at hids
  obtain ⟨⟨hn01, hn02⟩, hn12⟩ := hids
  have hn10 : ¬ (eventIdFor s t ra = eventIdFor s t0 r0) := fun h => hn01 h.symm
  have hn20 : ¬ (eventIdFor s t rb = eventIdFor s t0 r0) := fun h => hn02 h.symm
  have hstore : threeEventStore s m0 ma mb t0 t r0 ra rb =
      [(eventIdFor s t0 r0, ⟨s, m0, t0⟩), (eventIdFor s t ra, ⟨s, ma, t⟩),
       (eventIdFor s t rb, ⟨s, mb, t⟩)] := by
    simp [threeEventStore, appendEvent, storeEvent, mapSet, hn01, hn02, hn12]
  have hsorted : List.Pairwise createdLe
      [(eventIdFor s t0 r0, (⟨s, m0, t0⟩ : StoredEvent)),
       (eventIdFor s t ra, ⟨s, ma, t⟩),
       (eventIdFor s t rb, ⟨s, mb, t⟩)] := by
    simp [List.pairwise_cons, createdLe]
    omega
  have hsort := sortByCreatedAt_of_sorted _ hsorted
  rw [hstore]
  simp only [replayEventsAfter]
  rw [show mapGet [(eventIdFor s t0 r0, (⟨s, m0, t0⟩ : StoredEvent)),
      (eventIdFor s t ra, ⟨s, ma, t⟩), (eventIdFor s t rb, ⟨s, mb, t⟩)]
      (eventIdFor s t0 r0) = some ⟨s, m0, t0⟩ from by simp [mapGet]]
  rw [hsort]
  simp [replayLoop, hn10, hn20]

/-- Witness for the amended C5 at a concrete tied pair. -/
theorem c5_tie_broken_by_insertion_witness :
    List.Nodup [eventIdFor "s" 1 "r0", eventIdFor "s" 5 "ra",
      eventIdFor "s" 5 "rb"] ∧
    replayEventsAfter (threeEventStore "s" "m0" "ma" "mb" 1 5 "r0" "ra" "rb")
        (eventIdFor "s" 1 "r0") =
      ("s", [(eventIdFor "s" 5 "ra", "ma"), (eventIdFor "s" 5 "rb", "mb")]) :=
  ⟨by decide,
   c5_tie_broken_by_insertion "s" "m0" "ma" "mb" "r0" "ra" "rb" 1 5
     (by decide) (by decide)⟩

/-! ## Session registry (`SessionRegistry`, src/src/server/index.ts and
src/templates/starter-streamable-v2/src/server/session-registry.ts; the
two `closeSession`/`closeAll` bodies are identical) -/

/-- Outcome of one asynchronous `close()` call as `Promise.allSettled`
observes it: fulfilled, or rejected with a reason. -/
inductive Settled where
  | fulfilled
  | rejected (reason : String)
deriving DecidableEq, Repr

/-- Per-session state held in the registry's `sessions` map: the
transport and the `closeServer` thunk.  The registry only ever calls
`close()` on them, so the embedding keeps exactly the outcomes those
calls would settle with. -/
structure SessionState where
  transportCloseOutcome : Settled
  serverCloseOutcome : Settled
deriving DecidableEq, Repr

/-- The `sessions` map of `SessionRegistry`, in insertion order. -/
abbrev Registry := List (String × SessionState)

/-- One observable step of a close, in execution order. -/
inductive CloseStep where
  | deleteEntry (sessionId : String)
  | settleTransportClose (sessionId : String) (outcome : Settled)
  | settleServerClose (sessionId : String) (outcome : Settled)
deriving DecidableEq, Repr

/-- The method `SessionRegistry.closeSession`: look the session up; when
absent return at once; when present delete the map entry first and only
then await `Promise.allSettled([transport.close(), closeServer()])`.
The result is the new registry plus the ordered step trace.
`allSettled` collects both outcomes without rethrowing, so the function
is total. -/
def closeSession (reg : Registry) (sessionId : String) :
    Registry × List CloseStep :=
  match mapGet reg sessionId with
  | none => (reg, [])
  | some state =>
      (mapDelete reg sessionId,
       [CloseStep.deleteEntry sessionId,
        CloseStep.settleTransportClose sessionId state.transportCloseOutcome,
        CloseStep.settleServerClose sessionId state.serverCloseOutcome])

/-- The method `SessionRegistry.closeAll`: snapshot the key set
(`[...this.sessions.keys()]`) before iterating, then close every
snapshotted session, collecting all traces; `Promise.allSettled` keeps
going past individual failures. -/
def closeAll (reg : Registry) : Registry × List CloseStep :=
  let snapshot := reg.map Prod.fst
  snapshot.foldl
    (fun acc sessionId =>
      let out := closeSession acc.1 sessionId
      (out.1, acc.2 ++ out.2))
    (reg, [])

theorem mapGet_mapDelete {α : Type} (m : List (String × α)) (k : String) :
    mapGet (mapDelete m k) k = none := by
  rw [mapGet_eq_none_iff]
  intro v hv
  have := List.of_mem_filter hv
  simp at this

/-- C6: `closeSession` is idempotent.  On an absent identifier it is a
no-op returning without throwing and leaving the map untouched; on a
present identifier the map entry is deleted first, strictly before the
transport close and the domain-handler close are awaited (the step trace
shows the order), after which a repeated close is a no-op. -/
theorem c6_close_session_idempotent (reg : Registry) (sessionId : String) :
    (mapGet reg sessionId = none → closeSession reg sessionId = (reg, [])) ∧
    (∀ state, mapGet reg sessionId = some state →
      closeSession reg sessionId =
        (mapDelete reg sessionId,
         [CloseStep.deleteEntry sessionId,
          CloseStep.settleTransportClose sessionId state.transportCloseOutcome,
          CloseStep.settleServerClose sessionId state.serverCloseOutcome])) ∧
    closeSession (closeSession reg sessionId).1 sessionId =
      ((closeSession reg sessionId).1, []) := by
  refine ⟨fun h => by simp [closeSession, h], fun state h => by simp [closeSession, h], ?_⟩
  rcases hget : mapGet reg sessionId with _ | state
  · simp [closeSession, hget]
  · have h1 : (closeSession reg sessionId).1 = mapDelete reg sessionId := by
      simp [closeSession, hget]
    rw [h1]
    simp [closeSession, mapGet_mapDelete]

/-- Witness for C6 on a one-session registry whose server close would
reject: the absent id is a no-op and the double close is a no-op. -/
theorem c6_close_session_idempotent_witness :
    (mapGet [("s1", SessionState.mk Settled.fulfilled (Settled.rejected "boom"))] "zz" = none ∧
      closeSession [("s1", SessionState.mk Settled.fulfilled (Settled.rejected "boom"))] "zz" =
        ([("s1", SessionState.mk Settled.fulfilled (Settled.rejected "boom"))], [])) ∧
    closeSession
        (closeSession [("s1", SessionState.mk Settled.fulfilled (Settled.rejected "boom"))] "s1").1
        "s1" =
      ((closeSession [("s1", SessionState.mk Settled.fulfilled (Settled.rejected "boom"))] "s1").1,
       []) :=
  ⟨⟨by decide,
    (c6_close_session_idempotent
      [("s1", SessionState.mk Settled.fulfilled (Settled.rejected "boom"))] "zz").1 (by decide)⟩,
   (c6_close_session_idempotent
      [("s1", SessionState.mk Settled.fulfilled (Settled.rejected "boom"))] "s1").2.2⟩

theorem closeAll_loop_clears :
    ∀ (ks : List String) (acc : Registry × List CloseStep),
      (∀ p ∈ acc.1, p.1 ∈ ks) →
      (ks.foldl
        (fun acc sessionId =>
          let out := closeSession acc.1 sessionId
          (out.1, acc.2 ++ out.2)) acc).1 = [] := by
  intro ks
  induction ks with
  | nil =>
    intro acc h
    rcases hl : acc.1 with _ | ⟨p, _⟩
    · simpa using hl
    · exact absurd (h p (by rw [hl]; exact List.mem_cons_self _ _)) (by simp)
  | cons k ks ih =>
    intro acc h
    rw [List.foldl_cons]
    apply ih
    intro p hp
    rcases hget : mapGet acc.1 k with _ | state
    · rw [closeSession, hget] at hp
      have hk : p.1 ≠ k := by
        intro hk
        have := (mapGet_eq_none_iff acc.1 k).mp hget p.2
        rw [← hk] at this
        exact this hp
      rcases List.mem_cons.mp (h p hp) with h1 | h1
      · exact absurd h1 hk
      · exact h1
    · rw [closeSession, hget] at hp
      have hmem := List.mem_of_mem_filter hp
      have hk : ¬ (p.1 = k) := by
        have := List.of_mem_filter hp
        simpa using this
      rcases List.mem_cons.mp (h p hmem) with h1 | h1
      · exact absurd h1 hk
      · exact h1

/-- C7: `closeAll` removes every session present when it starts (the key
set is snapshotted before iteration), whatever the individual transport
and handler close outcomes are — a rejected close never stops the
remaining closures, so the registry always ends empty. -/
theorem c7_close_all_clears_registry (reg : Registry) :
    (closeAll reg).1 = [] := by
  apply closeAll_loop_clears
  intro p hp
  exact List.mem_map_of_mem Prod.fst hp

/-! ## Request router (`handleMcpRequest` and `createMcpHttpServer`,
src/unnamed/part_011) -/

/-- A JSON value, the result of `JSON.parse`. -/
inductive Json where
  | null
  | bool (b : Bool)
  | num (n : Int)
  | str (s : String)
  | arr (elems : List Json)
  | obj (fields : List (String × Json))

/-- The `mcp-session-id` header as Node delivers it to `getSessionId`:
absent, a single value, or repeated (an array of values). -/
inductive HeaderValue where
  | absent
  | single (value : String)
  | multi (values : List String)
deriving DecidableEq, Repr

/-- The helper `getSessionId`:
`Array.isArray(raw) ? raw[0] : raw`, where `raw[0]` of an empty array is
`undefined`. -/
def getSessionId (raw : HeaderValue) : Option String :=
  match raw with
  | HeaderValue.absent => none
  | HeaderValue.single v => some v
  | HeaderValue.multi vs => vs.head?

/-- JS truthiness of a `string | undefined` as tested by
`if (sessionId)`: `undefined` and the empty string are falsy.  The
result is the session id exactly when the test passes. -/
def truthyString (v : Option String) : Option String :=
  match v with
  | none => none
  | some s => if s = "" then none else some s

/-- The character class removed by `String.prototype.trim` (ECMAScript
WhiteSpace and LineTerminator code points; the common ones suffice for
the UTF-8 bodies the server reads). -/
def jsWhitespace (c : Char) : Bool :=
  c = ' ' || c = '\t' || c = '\n' || c = '\r' ||
  c = '\x0b' || c = '\x0c' || c = '\u00A0'

/-- JS `String.prototype.trim`: drop whitespace from both ends. -/
def jsTrim (l : List Char) : List Char :=
  ((l.dropWhile jsWhitespace).reverse.dropWhile jsWhitespace).reverse

/-- The helper `readJsonBody`: concatenate and UTF-8 decode the chunks,
`trim` the text; a zero-length result yields `{}` without ever calling
`JSON.parse`; otherwise the text goes to `JSON.parse`, embedded as the
`parse` parameter (a platform primitive, not repository code), whose
thrown `SyntaxError` is `Except.error`. -/
def readJsonBody (parse : List Char → Except String Json)
    (body : List Char) : Except String Json :=
  let text := jsTrim body
  if text.length = 0 then Except.ok (Json.obj [])
  else parse text

/-- An inbound request as `handleMcpRequest` consumes it: `req.method`
(`undefined` defaults to GET), the `mcp-session-id` header and the raw
body bytes. -/
structure McpRequest where
  method : Option String
  mcpSessionId : HeaderValue
  body : List Char

/-- What `handleMcpRequest` does with a request — its exhaustive set of
dispositions.  `existingSession` is `state.transport.handleRequest(req,
res[, parsedBody])` on the registered session's own transport;
`newSession` is `registry.createSessionTransport()` followed by
`transport.handleRequest`; `rpcError` is `sendJsonRpcError(res, status,
code, message)`; `methodNotAllowed` is the trailing
`res.statusCode = 405` with the `allow` header. -/
inductive Disposition where
  | existingSession (sessionId : String) (body : Option Json)
  | newSession (body : Json)
  | rpcError (status : Nat) (code : Int) (message : String)
  | methodNotAllowed (status : Nat) (allow : String)

/-- Helper: is the disposition "handed to an existing session's
transport"? -/
def Disposition.isExistingSession : Disposition → Bool
  | Disposition.existingSession _ _ => true
  | _ => false

/-- The 404 body text `` `Session '${sessionId}' was not found.` ``. -/
def sessionNotFoundMessage (sessionId : String) : String :=
  "Session \x27" ++ sessionId ++ "\x27 was not found."

/-- The router `handleMcpRequest` of src/unnamed/part_011, lines 56-114,
with `isInitializeRequest` (from the protocol SDK) and `JSON.parse`
passed in as parameters since both are external to the repository. -/
def handleMcpRequest (isInitializeReq : Json → Bool)
    (parse : List Char → Except String Json)
    (reg : Registry) (req : McpRequest) : Disposition :=
  let method := req.method.getD "GET"
  if method = "POST" then
    match readJsonBody parse req.body with
    | Except.error _ => Disposition.rpcError 400 (-32700) "Invalid JSON body"
    | Except.ok parsedBody =>
      match truthyString (getSessionId req.mcpSessionId) with
      | some sessionId =>
          match mapGet reg sessionId with
          | none =>
              Disposition.rpcError 404 (-32000) (sessionNotFoundMessage sessionId)
          | some _ => Disposition.existingSession sessionId (some parsedBody)
      | none =>
          if isInitializeReq parsedBody then Disposition.newSession parsedBody
          else Disposition.rpcError 400 (-32600)
            "Initialization request requires no session ID."
  else if method = "GET" ∨ method = "DELETE" then
    match truthyString (getSessionId req.mcpSessionId) with
    | none => Disposition.rpcError 400 (-32000) "Missing mcp-session-id header."
    | some sessionId =>
        match mapGet reg sessionId with
        | none =>
            Disposition.rpcError 404 (-32000) (sessionNotFoundMessage sessionId)
        | some _ => Disposition.existingSession sessionId none
  else Disposition.methodNotAllowed 405 "GET, POST, DELETE"

/-- A sample recognizer for handshake bodies, standing in for the SDK's
`isInitializeRequest` in concrete witnesses: an object whose first field
is `method: "initialize"`. -/
def initRecognizer : Json → Bool
  | Json.obj (("method", Json.str m) :: _) => m == "initialize"
  | _ => false

/-- A sample `JSON.parse` stand-in for concrete witnesses that rejects
every nonempty text. -/
def parseNone : List Char → Except String Json :=
  fun _ => Except.error "SyntaxError"

/-- A sample registry entry and registry for concrete witnesses. -/
def sampleState : SessionState :=
  SessionState.mk Settled.fulfilled Settled.fulfilled

/-- A registry holding the single live session `s1`. -/
def sampleRegistry : Registry := [("s1", sampleState)]

/-! ## Claims about the router -/

/-- C1 counterexample: a PUT request carrying the registered session
identifier `s1` is not handed to that session's transport — the router
answers 405 before ever consulting the registry — so the three-way split
with identifier precedence does not cover every inbound request on the
endpoint.  (A POST whose body fails to parse is likewise answered with
the HTTP 400 with code -32700 parse error before the session logic.) -/
theorem c1_counterexample :
    (mapGet sampleRegistry "s1").isSome = true ∧
    Disposition.isExistingSession
      (handleMcpRequest initRecognizer parseNone sampleRegistry
        (McpRequest.mk (some "PUT") (HeaderValue.single "s1") [])) = false ∧
    handleMcpRequest initRecognizer parseNone sampleRegistry
        (McpRequest.mk (some "PUT") (HeaderValue.single "s1") []) =
      Disposition.methodNotAllowed 405 "GET, POST, DELETE" :=
  ⟨rfl, rfl, rfl⟩

/-- C1 as amended: for every GET, POST or DELETE request on the MCP
endpoint (for POST, one whose body parses), the router produces exactly
one of the three dispositions, with identifier precedence: a truthy
session identifier found in the registry hands the request to that
session's transport; a truthy identifier not in the registry yields the
404 "session not found" error regardless of the body (even a handshake);
no identifier creates a session exactly when the body is a recognized
handshake and otherwise yields a 400 "bad request" error distinct from
the 404.  Requests with any other method are answered 405, and a POST
with an unparseable body HTTP 400 with code -32700, both before this session logic. -/
theorem c1_router_three_way_split (isInitializeReq : Json → Bool)
    (parse : List Char → Except String Json) (reg : Registry)
    (req : McpRequest) (parsedBody : Json)
    (hm : req.method.getD "GET" = "GET" ∨ req.method.getD "GET" = "POST" ∨
      req.method.getD "GET" = "DELETE")
    (hbody : req.method.getD "GET" = "POST" →
      readJsonBody parse req.body = Except.ok parsedBody) :
    (∀ sessionId state,
      truthyString (getSessionId req.mcpSessionId) = some sessionId →
      mapGet reg sessionId = some state →
      handleMcpRequest isInitializeReq parse reg req =
        Disposition.existingSession sessionId
          (if req.method.getD "GET" = "POST" then some parsedBody else none)) ∧
    (∀ sessionId,
      truthyString (getSessionId req.mcpSessionId) = some sessionId →
      mapGet reg sessionId = none →
      handleMcpRequest isInitializeReq parse reg req =
        Disposition.rpcError 404 (-32000) (sessionNotFoundMessage sessionId)) ∧
    (truthyString (getSessionId req.mcpSessionId) = none →
      handleMcpRequest isInitializeReq parse reg req =
        (if req.method.getD "GET" = "POST" then
          (if isInitializeReq parsedBody then Disposition.newSession parsedBody
           else Disposition.rpcError 400 (-32600)
             "Initialization request requires no session ID.")
         else Disposition.rpcError 400 (-32000)
           "Missing mcp-session-id header.")) := by
  refine ⟨?_, ?_, ?_⟩
  · intro sessionId state htr hget
    rcases hm with hg | hp | hd
    · simp [handleMcpRequest, hg, htr, hget]
    · simp [handleMcpRequest, hp, hbody hp, htr, hget]
    · simp [handleMcpRequest, hd, htr, hget]
  · intro sessionId htr hget
    rcases hm with hg | hp | hd
    · simp [handleMcpRequest, hg, htr, hget]
    · simp [handleMcpRequest, hp, hbody hp, htr, hget]
    · simp [handleMcpRequest, hd, htr, hget]
  · intro htr
    rcases hm with hg | hp | hd
    · simp [handleMcpRequest, hg, htr]
    · simp [handleMcpRequest, hp, hbody hp, htr]
    · simp [handleMcpRequest, hd, htr]

/-- Witness for the amended C1: a POST with an empty (hence parseable)
body and the registered identifier `s1` is handed to `s1`'s transport. -/
theorem c1_router_three_way_split_witness :
    truthyString (getSessionId
      (McpRequest.mk (some "POST") (HeaderValue.single "s1") []).mcpSessionId) =
        some "s1" ∧
    mapGet sampleRegistry "s1" = some sampleState ∧
    handleMcpRequest initRecognizer parseNone sampleRegistry
        (McpRequest.mk (some "POST") (HeaderValue.single "s1") []) =
      Disposition.existingSession "s1" (some (Json.obj [])) := by
  refine ⟨rfl, rfl, ?_⟩
  have h :=
    (c1_router_three_way_split initRecognizer parseNone sampleRegistry
      (McpRequest.mk (some "POST") (HeaderValue.single "s1") []) (Json.obj [])
      (Or.inr (Or.inl rfl)) (fun _ => rfl)).1 "s1" sampleState rfl rfl
  simpa using h

/-- C9: a POST whose body holds only whitespace (or nothing) makes
`readJsonBody` yield `{}` without consulting `JSON.parse`, so without a
session identifier the router answers the HTTP 400 with code -32600 "initialization
required" error, not the -32700 parse error.  The last hypothesis
records that the SDK does not recognize `{}` as a handshake (it has no
`method` member). -/
theorem c9_empty_body_bad_request (isInitializeReq : Json → Bool)
    (parse : List Char → Except String Json) (reg : Registry)
    (req : McpRequest)
    (hpost : req.method.getD "GET" = "POST")
    (hws : ∀ c ∈ req.body, jsWhitespace c = true)
    (hsid : truthyString (getSessionId req.mcpSessionId) = none)
    (hinit : isInitializeReq (Json.obj []) = false) :
    readJsonBody parse req.body = Except.ok (Json.obj []) ∧
    handleMcpRequest isInitializeReq parse reg req =
      Disposition.rpcError 400 (-32600)
        "Initialization request requires no session ID." := by
  have hdrop : req.body.dropWhile jsWhitespace = [] := by
    rw [List.dropWhile_eq_nil_iff]
    intro c hc
    exact hws c hc
  have htrim : jsTrim req.body = [] := by
    simp [jsTrim, hdrop]
  have hread : readJsonBody parse req.body = Except.ok (Json.obj []) := by
    simp [readJsonBody, htrim]
  refine ⟨hread, ?_⟩
  simp [handleMcpRequest, hpost, hread, hsid, hinit]

/-- Witness for C9: a POST of `" \n"` with no session header. -/
theorem c9_empty_body_bad_request_witness :
    (∀ c ∈ (McpRequest.mk (some "POST") HeaderValue.absent [' ', '\n']).body,
      jsWhitespace c = true) ∧
    initRecognizer (Json.obj []) = false ∧
    (readJsonBody parseNone [' ', '\n'] = Except.ok (Json.obj []) ∧
      handleMcpRequest initRecognizer parseNone sampleRegistry
          (McpRequest.mk (some "POST") HeaderValue.absent [' ', '\n']) =
        Disposition.rpcError 400 (-32600)
          "Initialization request requires no session ID.") :=
  ⟨by decide, rfl,
   c9_empty_body_bad_request initRecognizer parseNone sampleRegistry
     (McpRequest.mk (some "POST") HeaderValue.absent [' ', '\n'])
     rfl (by decide) rfl rfl⟩

/-- C10: any method other than GET, POST and DELETE is answered with
status 405 and the `allow` header exactly `GET, POST, DELETE`, for every
registry state alike (so the registry is never consulted and no session
is ever created: the disposition is a constant, and it is not
`newSession`). -/
theorem c10_method_gate (isInitializeReq : Json → Bool)
    (parse : List Char → Except String Json) (reg : Registry)
    (req : McpRequest)
    (hm : ¬ (req.method.getD "GET" = "GET" ∨ req.method.getD "GET" = "POST" ∨
      req.method.getD "GET" = "DELETE")) :
    handleMcpRequest isInitializeReq parse reg req =
      Disposition.methodNotAllowed 405 "GET, POST, DELETE" := by
  push_neg at hm
  obtain ⟨h1, h2, h3⟩ := hm
  simp [handleMcpRequest, h1, h2, h3]

/-- Witness for C10: a PATCH request, on a nonempty registry. -/
theorem c10_method_gate_witness :
    (¬ (((McpRequest.mk (some "PATCH") HeaderValue.absent []).method.getD "GET") = "GET" ∨
      ((McpRequest.mk (some "PATCH") HeaderValue.absent []).method.getD "GET") = "POST" ∨
      ((McpRequest.mk (some "PATCH") HeaderValue.absent []).method.getD "GET") = "DELETE")) ∧
    handleMcpRequest initRecognizer parseNone sampleRegistry
        (McpRequest.mk (some "PATCH") HeaderValue.absent []) =
      Disposition.methodNotAllowed 405 "GET, POST, DELETE" :=
  ⟨by decide,
   c10_method_gate initRecognizer parseNone sampleRegistry
     (McpRequest.mk (some "PATCH") HeaderValue.absent []) (by decide)⟩

/-! ## Outermost error boundary (`createMcpHttpServer` in
src/unnamed/part_011, and the top-level catch of the `app.all` handler
in src/src/server.ts) -/

/-- The client-visible pieces of an error response: HTTP status, JSON-RPC
error code, JSON-RPC error message. -/
structure HttpResponse where
  status : Nat
  code : Int
  message : String
deriving DecidableEq, Repr

/-- A JS exception as a `catch` block observes it: an `Error` instance
carrying its `message`, or any other thrown value. -/
inductive JsError where
  | error (message : String)
  | nonError
deriving DecidableEq, Repr

/-- The expression
`error instanceof Error ? error.message : 'An unknown error occurred.'`
from the catch block of src/src/server.ts. -/
def jsErrorText : JsError → String
  | JsError.error m => m
  | JsError.nonError => "An unknown error occurred."

/-- The catch block of `createMcpHttpServer` (src/unnamed/part_011,
lines 146-149) as it acts on the response object whose `headersSent`
flag is given: it calls `sendJsonRpcError(res, 500, -32603, 'Internal
server error')`, and `sendJson` (lines 17-19) first checks
`res.headersSent` and returns without writing — and without calling
`res.end` — when it already holds.  The result is the error response
written on the wire, or `none` when nothing is written.  The caught
error value is never consulted. -/
def serveMcpCatch (headersSent : Bool) (_e : JsError) : Option HttpResponse :=
  if headersSent then none
  else some (HttpResponse.mk 500 (-32603) "Internal server error")

/-- The outermost boundary of `createMcpHttpServer` (src/unnamed/
part_011, lines 117-150): the handler body either completes normally
(the boundary then writes no error response) or throws, in which case
the `catch` runs `serveMcpCatch` — the failure is absorbed either way
and the server callback itself never rethrows. -/
def serveMcpOutcome (headersSent : Bool) (outcome : Except JsError Unit) :
    Option HttpResponse :=
  match outcome with
  | Except.ok _ => none
  | Except.error e => serveMcpCatch headersSent e

/-- The top-level `catch (error)` block of the `app.all('/sse')` handler
(src/src/server.ts, lines 1331-1343): guarded by `if (!res.headersSent)`,
it sends HTTP 500 with code -32603 and the message
`` `Internal Server Error: ${errorMessage}` ``; when headers were
already sent it writes nothing. -/
def sseCatchResponse (headersSent : Bool) (e : JsError) : Option HttpResponse :=
  if headersSent then none
  else some (HttpResponse.mk 500 (-32603)
    ("Internal Server Error: " ++ jsErrorText e))

/-- C8 as amended: every unexpected failure at the outermost router
boundary is caught — absorbed by the catch block, never rethrown, so the
handler does not crash.  When response headers have not yet been sent,
the failure is converted into a well-formed HTTP 500 response with
JSON-RPC code -32603: in the part_011 server with the fixed message
"Internal server error", independent of the failure; in the server.ts
variant with the caught error's own message text embedded after the
"Internal Server Error: " prefix.  When headers were already sent
(e.g. a failure mid-stream), both catch blocks write nothing — no error
response is produced and part_011's `sendJson` returns without ending
the response. -/
theorem c8_outer_catch_converts (e e1 e2 : JsError) (hs : Bool) :
    serveMcpOutcome hs (Except.error e) = serveMcpCatch hs e ∧
    serveMcpCatch hs e1 = serveMcpCatch hs e2 ∧
    serveMcpCatch false e =
      some (HttpResponse.mk 500 (-32603) "Internal server error") ∧
    sseCatchResponse false e =
      some (HttpResponse.mk 500 (-32603)
        ("Internal Server Error: " ++ jsErrorText e)) ∧
    serveMcpCatch true e = none ∧
    sseCatchResponse true e = none :=
  ⟨rfl, rfl, rfl, rfl, rfl, rfl⟩

/-- C8 counterexample, two parts.  Leak: the server.ts catch block
copies the caught error's own message into the client-visible message
(here a connection string leaks verbatim), so the response is not
independent of internal failure detail.  No conversion after headers:
when `res.headersSent` holds, neither boundary writes any HTTP 500
response at all — the part_011 catch also skips the `res.end` call — so
a failure there is not converted into a response and the connection is
not closed by the catch. -/
theorem c8_counterexample :
    sseCatchResponse false
        (JsError.error "connect ECONNREFUSED /var/run/postgres.sock") =
      some (HttpResponse.mk 500 (-32603)
        "Internal Server Error: connect ECONNREFUSED /var/run/postgres.sock") ∧
    sseCatchResponse false (JsError.error "alpha") ≠
      sseCatchResponse false (JsError.error "beta") ∧
    serveMcpCatch true (JsError.error "boom") = none ∧
    sseCatchResponse true (JsError.error "boom") = none :=
  ⟨rfl, by decide, rfl, rfl⟩

end McpServer
